import Mathlib

/-!
Shallow embedding of the fastapi_supabase application: a FastAPI app exposing
item/user resources backed by a Supabase store, with a not-found middleware.

Translated from the sources:
  app/models/item.py, app/models/user.py     (pydantic models)
  app/services/item_service.py, app/services/user_service.py
  app/api/items.py, app/api/users.py         (route declarations)
  app/middleware/not_found.py
  main.py                                    (composition)

JSON values carried by request/response bodies and store records are modelled
by `JValue`; Python floats are carried as `Rat` (no floating-point arithmetic
occurs anywhere in the program, values are only passed through). Pydantic v2
lax coercion of numeric strings (e.g. "3" accepted for a float field) is not
modelled; no theorem below depends on string-to-number coercion. Pydantic's
default extra-field policy for BaseModel is `ignore`, which the parsers mirror
by only looking up declared keys.
-/

namespace App

/-- A JSON value (flat values, arrays and objects), as carried by HTTP bodies
and by the rows of `response.data` of the supabase client. -/
inductive JValue where
  | null : JValue
  | int : Int → JValue
  | num : Rat → JValue
  | str : String → JValue
  | bool : Bool → JValue
  | arr : List JValue → JValue
  | obj : List (String × JValue) → JValue

/-- A generic store record: the untyped key-value row representation used by
`response.data` and by insert payloads (a Python dict). -/
def Record : Type := List (String × JValue)

/-- First-match key lookup in a dict/object, as Python dict access. -/
def getKey (k : String) : List (String × JValue) → Option JValue
  | [] => none
  | (k', v) :: rest => if k' = k then some v else getKey k rest

/-- `app/models/item.py`: `class Item(BaseModel)` with fields
`id : int | None = None`, `name : str`, `description : str | None = None`,
`price : float`, `tax : float | None = None`. -/
structure Item where
  id : Option Int
  name : String
  description : Option String
  price : Rat
  tax : Option Rat
deriving DecidableEq, Repr

/-- `app/models/user.py`: `class User(BaseModel)` with fields
`id : int | None = None`, `name : str`, `description : str | None = None`,
`age : int | None = None`. -/
structure User where
  id : Option Int
  name : String
  description : Option String
  age : Option Int
deriving DecidableEq, Repr

/-- Pydantic coercion to `int` (bools and non-integral values rejected). -/
def coerceInt : JValue → Option Int
  | JValue.int n => some n
  | _ => none

/-- Pydantic coercion to `str`. -/
def coerceStr : JValue → Option String
  | JValue.str s => some s
  | _ => none

/-- Pydantic coercion to `float`: ints and numbers accepted. -/
def coerceNum : JValue → Option Rat
  | JValue.int n => some (n : Rat)
  | JValue.num q => some q
  | _ => none

/-- Validation of an optional model field with default `None`: an absent key
or an explicit `null` yields `None`; any other value must coerce. -/
def optField (fs : List (String × JValue)) (k : String)
    (coe : JValue → Option α) : Option (Option α) :=
  match getKey k fs with
  | none => some none
  | some JValue.null => some none
  | some v => (coe v).map some

/-- Validation of a required model field: the key must be present and its
value (null included) must coerce. -/
def reqField (fs : List (String × JValue)) (k : String)
    (coe : JValue → Option α) : Option α :=
  match getKey k fs with
  | none => none
  | some v => coe v

/-- Pydantic validation of an `Item` from a JSON object / keyword dict
(`Item(**data)` and FastAPI request-body validation): required fields must be
present and well typed, optional fields default to `None`, extra keys are
ignored (pydantic BaseModel default `extra`). `none` is a ValidationError. -/
def parseItem : JValue → Option Item
  | JValue.obj fs =>
    match optField fs "id" coerceInt, reqField fs "name" coerceStr,
          optField fs "description" coerceStr, reqField fs "price" coerceNum,
          optField fs "tax" coerceNum with
    | some i, some n, some d, some p, some t => some ⟨i, n, d, p, t⟩
    | _, _, _, _, _ => none
  | _ => none

/-- Pydantic validation of a `User`, as `parseItem`. -/
def parseUser : JValue → Option User
  | JValue.obj fs =>
    match optField fs "id" coerceInt, reqField fs "name" coerceStr,
          optField fs "description" coerceStr, optField fs "age" coerceInt with
    | some i, some n, some d, some a => some ⟨i, n, d, a⟩
    | _, _, _, _ => none
  | _ => none

/-- `item.dict(exclude_none=True)`: serialize an `Item` to a dict in field
declaration order, omitting every field whose value is `None`. -/
def itemDict (it : Item) : Record :=
  (match it.id with | some n => [("id", JValue.int n)] | none => []) ++
  [("name", JValue.str it.name)] ++
  (match it.description with | some s => [("description", JValue.str s)] | none => []) ++
  [("price", JValue.num it.price)] ++
  (match it.tax with | some q => [("tax", JValue.num q)] | none => [])

/-- `user.dict(exclude_none=True)`: serialize a `User` to a dict in field
declaration order, omitting every field whose value is `None`. -/
def userDict (u : User) : Record :=
  (match u.id with | some n => [("id", JValue.int n)] | none => []) ++
  [("name", JValue.str u.name)] ++
  (match u.description with | some s => [("description", JValue.str s)] | none => []) ++
  (match u.age with | some n => [("age", JValue.int n)] | none => [])

/-- The external supabase store, as seen through
`supabase_client.table(t).select("*").execute().data` and
`supabase_client.table(t).insert(payload).execute().data`: the rows currently
returned by a full read of each table, and, for each table, the rows the
insert call reports as created for a given payload. -/
structure Store where
  items : List Record
  users : List Record
  insertItems : Record → List Record
  insertUsers : Record → List Record

/-- Exceptions that escape a handler: `IndexError` from `response.data[0]` on
an empty insert result, and pydantic `ValidationError` raised by `Model(**row)`
when translating a store record (not a request-validation error). -/
inductive Exn where
  | indexError : Exn
  | translationError : Exn
deriving DecidableEq, Repr

/-- The list comprehension `[Model(**row) for row in rows]` over a fallible
per-row conversion: the first failing row aborts the whole comprehension with
its exception; no partial result is produced. -/
def listComp (f : α → Option β) : List α → Option (List β)
  | [] => some []
  | a :: as =>
    match f a, listComp f as with
    | some b, some bs => some (b :: bs)
    | _, _ => none

/-- `app/services/item_service.py::get_items_from_supabase`: read all rows of
the `items` table and convert each to an `Item`. -/
def get_items_from_supabase (store : Store) : Except Exn (List Item) :=
  match listComp (fun r => parseItem (JValue.obj r)) store.items with
  | some items => Except.ok items
  | none => Except.error Exn.translationError

/-- `app/services/item_service.py::create_item_in_supabase`: serialize the
item with `dict(exclude_none=True)`, insert it, take `response.data[0]`
(IndexError when the insert reports zero rows) and convert it back. -/
def create_item_in_supabase (store : Store) (item : Item) : Except Exn Item :=
  let item_dict := itemDict item
  match store.insertItems item_dict with
  | [] => Except.error Exn.indexError
  | r :: _ =>
    match parseItem (JValue.obj r) with
    | some created => Except.ok created
    | none => Except.error Exn.translationError

/-- `app/services/user_service.py::get_users_from_supabase`. -/
def get_users_from_supabase (store : Store) : Except Exn (List User) :=
  match listComp (fun r => parseUser (JValue.obj r)) store.users with
  | some us => Except.ok us
  | none => Except.error Exn.translationError

/-- `app/services/user_service.py::create_user_in_supabase`. -/
def create_user_in_supabase (store : Store) (user : User) : Except Exn User :=
  let user_dict := userDict user
  match store.insertUsers user_dict with
  | [] => Except.error Exn.indexError
  | r :: _ =>
    match parseUser (JValue.obj r) with
    | some created => Except.ok created
    | none => Except.error Exn.translationError

/-- An HTTP response body: plain text or structured JSON. -/
inductive Body where
  | text : String → Body
  | json : JValue → Body

/-- An HTTP response: status code, body and content type. -/
structure Response where
  status : Nat
  body : Body
  mediaType : String

/-- HTTP request methods used by the app's surface. -/
inductive Method where
  | get : Method
  | post : Method
deriving DecidableEq, Repr

/-- An inbound HTTP request: method, exact path, and (for POSTs) a JSON body. -/
structure Request where
  method : Method
  path : String
  body : JValue

/-- JSON serialization of an `Item` under `response_model=Item`: every field
serialized, absent optional fields as `null`. -/
def itemJson (it : Item) : JValue :=
  JValue.obj [("id", it.id.elim JValue.null JValue.int),
    ("name", JValue.str it.name),
    ("description", it.description.elim JValue.null JValue.str),
    ("price", JValue.num it.price),
    ("tax", it.tax.elim JValue.null JValue.num)]

/-- JSON serialization of a `User` under `response_model=User`. -/
def userJson (u : User) : JValue :=
  JValue.obj [("id", u.id.elim JValue.null JValue.int),
    ("name", JValue.str u.name),
    ("description", u.description.elim JValue.null JValue.str),
    ("age", u.age.elim JValue.null JValue.int)]

/-- FastAPI's default 422 response to a request-body ValidationError. The
per-field error list in `detail` is abstracted to an empty array; no claim
concerns its contents. -/
def validation422 : Response :=
  ⟨422, Body.json (JValue.obj [("detail", JValue.arr [])]), "application/json"⟩

/-- The router plus FastAPI's exception handlers (the layer
`call_next` reaches under the middleware): dispatch on method and exact path
over the registered routes — `GET /items/`, `POST /items/` (items router),
`GET /users/`, `POST /user/` (users router), `GET /` — with unmatched
requests answered by the default 404 JSON response. Returns the response (or
the exception escaping the handler) together with the number of service/store
invocations the request caused. -/
def routeApp (store : Store) (req : Request) : Except Exn Response × Nat :=
  match req.method, req.path with
  | Method.get, "/items/" =>
    (match get_items_from_supabase store with
     | Except.ok items =>
       Except.ok ⟨200, Body.json (JValue.arr (items.map itemJson)), "application/json"⟩
     | Except.error e => Except.error e, 1)
  | Method.post, "/items/" =>
    (match parseItem req.body with
     | none => (Except.ok validation422, 0)
     | some item =>
       (match create_item_in_supabase store item with
        | Except.ok created =>
          Except.ok ⟨201, Body.json (itemJson created), "application/json"⟩
        | Except.error e => Except.error e, 1))
  | Method.get, "/users/" =>
    (match get_users_from_supabase store with
     | Except.ok us =>
       Except.ok ⟨200, Body.json (JValue.arr (us.map userJson)), "application/json"⟩
     | Except.error e => Except.error e, 1)
  | Method.post, "/user/" =>
    (match parseUser req.body with
     | none => (Except.ok validation422, 0)
     | some user =>
       (match create_user_in_supabase store user with
        | Except.ok created =>
          Except.ok ⟨201, Body.json (userJson created), "application/json"⟩
        | Except.error e => Except.error e, 1))
  | Method.get, "/" =>
    (Except.ok ⟨200,
      Body.json (JValue.obj [("message", JValue.str "Hello from FastAPI with Supabase!")]),
      "application/json"⟩, 0)
  | _, _ =>
    (Except.ok ⟨404, Body.json (JValue.obj [("detail", JValue.str "Not Found")]),
      "application/json"⟩, 0)

/-- The fixed response the middleware substitutes for a 404. -/
def wrongQueryResponse : Response :=
  ⟨404, Body.text "Sorry, wrong query", "text/plain"⟩

/-- `app/middleware/not_found.py::not_found_middleware`, applied to the
outcome of `call_next`: an exception is re-raised unmodified; a response with
status 404 is replaced by the fixed plain-text response; any other response
passes through unmodified. -/
def not_found_middleware (inner : Except Exn Response) : Except Exn Response :=
  match inner with
  | Except.error e => Except.error e
  | Except.ok resp =>
    if resp.status = 404 then Except.ok wrongQueryResponse else Except.ok resp

/-- Starlette's outermost server-error middleware: an exception that escapes
every inner layer becomes the plain-text 500 response. -/
def server_error_handler (x : Except Exn Response) : Response :=
  match x with
  | Except.ok resp => resp
  | Except.error _ => ⟨500, Body.text "Internal Server Error", "text/plain"⟩

/-- `main.py`: the whole application — route dispatch, then the not-found
middleware (registered last, hence outermost among user middleware), then the
framework's server-error layer. Returns the final response together with the
number of service/store invocations. -/
def handle (store : Store) (req : Request) : Response × Nat :=
  let (inner, n) := routeApp store req
  (server_error_handler (not_found_middleware inner), n)

/-- A store whose insert calls echo the payload back with a store-assigned
id `1` prepended, and whose tables are empty. -/
def echoStore : Store :=
  ⟨[], [], fun r => [("id", JValue.int 1) :: r], fun r => [("id", JValue.int 1) :: r]⟩

/-- A store whose insert calls report zero created records. -/
def emptyInsertStore : Store :=
  ⟨[], [], fun _ => [], fun _ => []⟩

/-- An items table holding one well-shaped record. -/
def okItemsStore : Store :=
  ⟨[itemDict ⟨some 1, "Foo", none, 3, none⟩], [], fun _ => [], fun _ => []⟩

/-- An items table holding one record whose `name` has the wrong type. -/
def badItemsStore : Store :=
  ⟨[[("name", JValue.int 0)]], [], fun _ => [], fun _ => []⟩

/-- Parsing back the `exclude_none` dict of an item recovers the item:
omitted optional fields re-validate to their `None` default. -/
theorem parseItem_itemDict (d : Item) :
    parseItem (JValue.obj (itemDict d)) = some d := by
  obtain ⟨i, n, ds, p, t⟩ := d
  cases i <;> cases ds <;> cases t <;> rfl

/-- Parsing the `exclude_none` dict of an id-less item with a store-assigned
id prepended recovers the item with that id. -/
theorem parseItem_idCons (d : Item) (m : Int) (hid : d.id = none) :
    parseItem (JValue.obj (("id", JValue.int m) :: itemDict d)) =
      some ⟨some m, d.name, d.description, d.price, d.tax⟩ := by
  obtain ⟨i, n, ds, p, t⟩ := d
  cases i with
  | none => cases ds <;> cases t <;> rfl
  | some v => simp at hid

/-- `handle` in terms of its stages. -/
theorem handle_eq (store : Store) (req : Request) :
    handle store req =
      (server_error_handler (not_found_middleware (routeApp store req).1),
        (routeApp store req).2) := rfl

/-- Dispatch of `POST /items/`. -/
theorem routeApp_post_items (store : Store) (b : JValue) :
    routeApp store ⟨Method.post, "/items/", b⟩ =
      (match parseItem b with
       | none => (Except.ok validation422, 0)
       | some item =>
         (match create_item_in_supabase store item with
          | Except.ok created =>
            Except.ok ⟨201, Body.json (itemJson created), "application/json"⟩
          | Except.error e => Except.error e, 1)) := rfl

/-- Dispatch of `GET /items/`. -/
theorem routeApp_get_items (store : Store) (b : JValue) :
    routeApp store ⟨Method.get, "/items/", b⟩ =
      (match get_items_from_supabase store with
       | Except.ok items =>
         Except.ok ⟨200, Body.json (JValue.arr (items.map itemJson)), "application/json"⟩
       | Except.error e => Except.error e, 1) := rfl

theorem listComp_length {f : α → Option β} :
    ∀ {xs : List α} {l : List β}, listComp f xs = some l → l.length = xs.length := by
  intro xs
  induction xs with
  | nil => intro l h; simp [listComp] at h; simp [h.symm]
  | cons a as ih =>
    intro l h
    simp only [listComp] at h
    cases hfa : f a with
    | none => rw [hfa] at h; cases hrest : listComp f as <;> rw [hrest] at h <;> simp at h
    | some b =>
      rw [hfa] at h
      cases hrest : listComp f as with
      | none => rw [hrest] at h; simp at h
      | some bs =>
        rw [hrest] at h
        simp at h
        rw [h.symm]
        simp [ih hrest]

theorem listComp_get {f : α → Option β} :
    ∀ {xs : List α} {l : List β}, listComp f xs = some l →
      ∀ i (hi : i < xs.length) (hl : i < l.length),
        f (xs.get ⟨i, hi⟩) = some (l.get ⟨i, hl⟩) := by
  intro xs
  induction xs with
  | nil => intro l h i hi hl; simp at hi
  | cons a as ih =>
    intro l h i hi hl
    simp only [listComp] at h
    cases hfa : f a with
    | none => rw [hfa] at h; cases hrest : listComp f as <;> rw [hrest] at h <;> simp at h
    | some b =>
      rw [hfa] at h
      cases hrest : listComp f as with
      | none => rw [hrest] at h; simp at h
      | some bs =>
        rw [hrest] at h
        simp at h
        subst h
        cases i with
        | zero => simpa using hfa
        | succ j =>
          have hj : j < as.length := Nat.lt_of_succ_lt_succ hi
          have hjl : j < bs.length := Nat.lt_of_succ_lt_succ hl
          simpa using ih hrest j hj hjl

theorem listComp_none_of_mem {f : α → Option β} {xs : List α} {a : α}
    (ha : a ∈ xs) (hf : f a = none) : listComp f xs = none := by
  induction xs with
  | nil => simp at ha
  | cons x rest ih =>
    rcases List.mem_cons.mp ha with h | h
    · subst h; simp [listComp, hf]
    · simp only [listComp, ih h]
      cases f x <;> rfl

/-- C1: for every inner response, the not-found middleware replaces the body
with exactly the plain-text payload "Sorry, wrong query" while keeping status
404 if and only if the inner response has status 404; every response with any
other status is returned unmodified. -/
theorem not_found_middleware_404_iff (r : Response) :
    not_found_middleware (Except.ok r) =
      Except.ok (if r.status = 404 then wrongQueryResponse else r) := by
  by_cases h : r.status = 404 <;> simp [not_found_middleware, h]

/-- C2 counterexample: a POST to `/item/` with a body missing the required
`price` field is answered 404 (the path is unmatched — the item route is
`/items/`), not 422; and a POST to `/items/` with an extra field in an
otherwise valid body is accepted with 201, not rejected with 422. -/
theorem post_item_422_counterexample :
    handle echoStore ⟨Method.post, "/item/", JValue.obj [("name", JValue.str "Foo")]⟩ =
      (wrongQueryResponse, 0) ∧
    wrongQueryResponse.status = 404 ∧ (404 : Nat) ≠ 422 ∧
    (handle echoStore ⟨Method.post, "/items/",
      JValue.obj [("name", JValue.str "Foo"), ("price", JValue.int 3),
        ("extra", JValue.int 1)]⟩).1.status = 201 :=
  ⟨rfl, rfl, by decide, rfl⟩

/-- C2 amended: for every POST to `/items/` (the actual item-creation route)
whose body is missing the required `price` field, validation fails, the
response status is 422, and the service/store layer is never invoked (zero
store calls); extra fields are ignored by the draft validation rather than
rejected. -/
theorem post_items_missing_price_422 (store : Store) (fs : List (String × JValue))
    (h : getKey "price" fs = none) :
    parseItem (JValue.obj fs) = none ∧
    handle store ⟨Method.post, "/items/", JValue.obj fs⟩ = (validation422, 0) := by
  have hp : parseItem (JValue.obj fs) = none := by
    have hpr : reqField fs "price" coerceNum = none := by simp [reqField, h]
    simp only [parseItem, hpr]
    cases optField fs "id" coerceInt <;> cases reqField fs "name" coerceStr <;>
      cases optField fs "description" coerceStr <;> cases optField fs "tax" coerceNum <;> rfl
  refine ⟨hp, ?_⟩
  rw [handle_eq, routeApp_post_items, hp]
  rfl

/-- C2 witness at a concrete body and store. -/
theorem post_items_missing_price_422_witness :
    parseItem (JValue.obj [("name", JValue.str "Bar")]) = none ∧
    handle echoStore ⟨Method.post, "/items/", JValue.obj [("name", JValue.str "Bar")]⟩ =
      (validation422, 0) :=
  post_items_missing_price_422 echoStore [("name", JValue.str "Bar")] rfl

/-- C3 counterexample: even a fully valid Item draft POSTed to `/item/` falls
through to the 404 path with zero service invocations — the HTTP surface has
no `POST /item/` route (the item-creation route is `POST /items/`). -/
theorem post_item_route_counterexample :
    handle echoStore ⟨Method.post, "/item/",
      JValue.obj [("name", JValue.str "Bar"), ("price", JValue.num 5)]⟩ =
      (wrongQueryResponse, 0) ∧ wrongQueryResponse.status = 404 :=
  ⟨rfl, rfl⟩

/-- C3 amended: the HTTP surface includes a route matching method POST and
path `/items/` (not `/item/`) that accepts an Item draft without id and
responds 201 with the created Item carrying a store-assigned id; a POST to
`/items/` is matched by that route, while a POST to `/item/` falls through to
the 404 path. -/
theorem post_items_route_matched (store : Store) (d : Item) (newId : Int)
    (hid : d.id = none)
    (hstore : store.insertItems (itemDict d) = [("id", JValue.int newId) :: itemDict d]) :
    handle store ⟨Method.post, "/items/", JValue.obj (itemDict d)⟩ =
      (⟨201, Body.json (itemJson ⟨some newId, d.name, d.description, d.price, d.tax⟩),
        "application/json"⟩, 1) ∧
    handle store ⟨Method.post, "/item/", JValue.obj (itemDict d)⟩ =
      (wrongQueryResponse, 0) := by
  have hc : create_item_in_supabase store d =
      Except.ok ⟨some newId, d.name, d.description, d.price, d.tax⟩ := by
    simp only [create_item_in_supabase, hstore, parseItem_idCons d newId hid]
  refine ⟨?_, rfl⟩
  rw [handle_eq, routeApp_post_items, parseItem_itemDict]
  simp only [hc]
  rfl

/-- C3 witness at a concrete draft and echoing store. -/
theorem post_items_route_matched_witness :
    handle echoStore ⟨Method.post, "/items/",
      JValue.obj (itemDict ⟨none, "Foo", none, 3, none⟩)⟩ =
      (⟨201, Body.json (itemJson ⟨some 1, "Foo", none, 3, none⟩), "application/json"⟩, 1) :=
  (post_items_route_matched echoStore ⟨none, "Foo", none, 3, none⟩ 1 rfl rfl).1

/-- C4: for every valid Item draft `d` (no id), assuming the store's insert
echoes back the inserted record with a store-assigned id, `create` returns an
entity equal to `d` in every field except `id`, whose `id` is present and
non-null (`some newId`). -/
theorem create_item_echoes_draft (store : Store) (d : Item) (newId : Int)
    (hid : d.id = none)
    (hstore : store.insertItems (itemDict d) = [("id", JValue.int newId) :: itemDict d]) :
    create_item_in_supabase store d =
      Except.ok ⟨some newId, d.name, d.description, d.price, d.tax⟩ := by
  simp only [create_item_in_supabase, hstore, parseItem_idCons d newId hid]

/-- C4 witness at a concrete draft and echoing store. -/
theorem create_item_echoes_draft_witness :
    create_item_in_supabase echoStore ⟨none, "Foo", some "bar", 3, none⟩ =
      Except.ok ⟨some 1, "Foo", some "bar", 3, none⟩ :=
  create_item_echoes_draft echoStore ⟨none, "Foo", some "bar", 3, none⟩ 1 rfl rfl

/-- C5: if the store's insert reports zero created records, `create` fails
with the IndexError from `response.data[0]`, which propagates unhandled and
surfaces as the framework's plain-text 500 response (not an empty success). -/
theorem create_item_empty_insert_500 (store : Store) (d : Item)
    (h : store.insertItems (itemDict d) = []) :
    create_item_in_supabase store d = Except.error Exn.indexError ∧
    handle store ⟨Method.post, "/items/", JValue.obj (itemDict d)⟩ =
      (⟨500, Body.text "Internal Server Error", "text/plain"⟩, 1) := by
  have hc : create_item_in_supabase store d = Except.error Exn.indexError := by
    simp only [create_item_in_supabase, h]
  refine ⟨hc, ?_⟩
  rw [handle_eq, routeApp_post_items, parseItem_itemDict]
  simp only [hc]
  rfl

/-- C5 witness at a concrete draft and empty-result store. -/
theorem create_item_empty_insert_500_witness :
    create_item_in_supabase emptyInsertStore ⟨none, "Foo", none, 3, none⟩ =
      Except.error Exn.indexError ∧
    handle emptyInsertStore ⟨Method.post, "/items/",
      JValue.obj (itemDict ⟨none, "Foo", none, 3, none⟩)⟩ =
      (⟨500, Body.text "Internal Server Error", "text/plain"⟩, 1) :=
  create_item_empty_insert_500 emptyInsertStore ⟨none, "Foo", none, 3, none⟩ rfl

/-- C6: when the store's read-all of the items table yields no records,
`list()` returns the empty list and `GET /items/` responds 200 with an empty
JSON array (not null, not an error). -/
theorem get_items_empty_table_200 (store : Store) (h : store.items = []) :
    get_items_from_supabase store = Except.ok [] ∧
    handle store ⟨Method.get, "/items/", JValue.null⟩ =
      (⟨200, Body.json (JValue.arr []), "application/json"⟩, 1) := by
  have hg : get_items_from_supabase store = Except.ok [] := by
    simp only [get_items_from_supabase, h, listComp]
  refine ⟨hg, ?_⟩
  rw [handle_eq, routeApp_get_items]
  simp only [hg]
  rfl

/-- C6 witness at a concrete empty store. -/
theorem get_items_empty_table_200_witness :
    get_items_from_supabase emptyInsertStore = Except.ok [] ∧
    handle emptyInsertStore ⟨Method.get, "/items/", JValue.null⟩ =
      (⟨200, Body.json (JValue.arr []), "application/json"⟩, 1) :=
  get_items_empty_table_200 emptyInsertStore rfl

/-- C7: `list()` converts the store's records in order — when every record
validates, it returns the whole converted sequence, of the same length and
converted pointwise; when any record is missing a required field or has a
type mismatch, it fails with the unhandled translation error and returns no
partial result. -/
theorem get_items_converts_in_order (store : Store) :
    (∀ l, listComp (fun r => parseItem (JValue.obj r)) store.items = some l →
      get_items_from_supabase store = Except.ok l ∧
      l.length = store.items.length ∧
      ∀ i (hi : i < store.items.length) (hl : i < l.length),
        parseItem (JValue.obj (store.items.get ⟨i, hi⟩)) = some (l.get ⟨i, hl⟩)) ∧
    (∀ r, r ∈ store.items → parseItem (JValue.obj r) = none →
      get_items_from_supabase store = Except.error Exn.translationError) := by
  constructor
  · intro l hl
    refine ⟨by simp only [get_items_from_supabase, hl], listComp_length hl, ?_⟩
    intro i hi hil
    exact listComp_get hl i hi hil
  · intro r hr hbad
    have : listComp (fun r => parseItem (JValue.obj r)) store.items = none :=
      listComp_none_of_mem hr hbad
    simp only [get_items_from_supabase, this]

/-- C7 witness: a one-good-record table converts to the one item; a table
with one ill-typed record fails as a whole with the translation error. -/
theorem get_items_converts_in_order_witness :
    get_items_from_supabase okItemsStore = Except.ok [⟨some 1, "Foo", none, 3, none⟩] ∧
    get_items_from_supabase badItemsStore = Except.error Exn.translationError :=
  ⟨((get_items_converts_in_order okItemsStore).1 [⟨some 1, "Foo", none, 3, none⟩] rfl).1,
   (get_items_converts_in_order badItemsStore).2 [("name", JValue.int 0)]
     (by simp [badItemsStore]) rfl⟩

/-- C8 counterexample: a creation body carrying `id = 5` validates as a draft
(nothing rejects it), its `exclude_none` serialization — the store-insert
payload — contains the client-supplied id, and the POST to `/items/` with
that body is accepted with one store call and status 201. -/
theorem client_id_accepted_counterexample :
    parseItem (JValue.obj [("id", JValue.int 5), ("name", JValue.str "Foo"),
      ("price", JValue.int 3)]) = some ⟨some 5, "Foo", none, 3, none⟩ ∧
    getKey "id" (itemDict ⟨some 5, "Foo", none, 3, none⟩) = some (JValue.int 5) ∧
    (handle echoStore ⟨Method.post, "/items/",
      JValue.obj [("id", JValue.int 5), ("name", JValue.str "Foo"),
        ("price", JValue.int 3)]⟩) =
      (⟨201, Body.json (itemJson ⟨some 1, "Foo", none, 3, none⟩), "application/json"⟩, 1) :=
  ⟨rfl, rfl, rfl⟩

/-- C8 amended: the `id` field is declared optional on the draft shape and a
creation body carrying an id is accepted rather than rejected; whenever a
body with `id = n` validates, the resulting draft carries `id = n` and the
`exclude_none` store-insert payload contains that client-supplied id. -/
theorem client_id_reaches_payload (fs : List (String × JValue)) (n : Int) (it : Item)
    (h : getKey "id" fs = some (JValue.int n))
    (hp : parseItem (JValue.obj fs) = some it) :
    it.id = some n ∧ getKey "id" (itemDict it) = some (JValue.int n) := by
  have hid : optField fs "id" coerceInt = some (some n) := by
    simp [optField, h, coerceInt]
  simp only [parseItem, hid] at hp
  cases hn : reqField fs "name" coerceStr <;> rw [hn] at hp <;>
    cases hd : optField fs "description" coerceStr <;> rw [hd] at hp <;>
      cases hq : reqField fs "price" coerceNum <;> rw [hq] at hp <;>
        cases ht : optField fs "tax" coerceNum <;> rw [ht] at hp <;> simp at hp
  rw [hp.symm]
  exact ⟨rfl, rfl⟩

/-- C8 witness at a concrete body carrying an id. -/
theorem client_id_reaches_payload_witness :
    (⟨some 5, "Bar", none, 3, none⟩ : Item).id = some 5 ∧
    getKey "id" (itemDict ⟨some 5, "Bar", none, 3, none⟩) = some (JValue.int 5) :=
  client_id_reaches_payload [("id", JValue.int 5), ("name", JValue.str "Bar"),
    ("price", JValue.int 3)] 5 ⟨some 5, "Bar", none, 3, none⟩ rfl rfl

/-- C9: the `exclude_none` store-insert payload of a draft contains exactly
the fields set (non-null) on the draft — each declared key is present with
the draft's value precisely when that field is set, required fields are
always present, and no other keys occur — for items and users alike. -/
theorem dict_contains_exactly_set_fields :
    (∀ d : Item,
      getKey "id" (itemDict d) = d.id.map JValue.int ∧
      getKey "name" (itemDict d) = some (JValue.str d.name) ∧
      getKey "description" (itemDict d) = d.description.map JValue.str ∧
      getKey "price" (itemDict d) = some (JValue.num d.price) ∧
      getKey "tax" (itemDict d) = d.tax.map JValue.num ∧
      ((itemDict d).map Prod.fst).all (fun k =>
        k == "id" || k == "name" || k == "description" || k == "price" || k == "tax")) ∧
    (∀ u : User,
      getKey "id" (userDict u) = u.id.map JValue.int ∧
      getKey "name" (userDict u) = some (JValue.str u.name) ∧
      getKey "description" (userDict u) = u.description.map JValue.str ∧
      getKey "age" (userDict u) = u.age.map JValue.int ∧
      ((userDict u).map Prod.fst).all (fun k =>
        k == "id" || k == "name" || k == "description" || k == "age")) := by
  constructor
  · intro d
    obtain ⟨i, n, ds, p, t⟩ := d
    cases i <;> cases ds <;> cases t <;> exact ⟨rfl, rfl, rfl, rfl, rfl, rfl⟩
  · intro u
    obtain ⟨i, n, ds, a⟩ := u
    cases i <;> cases ds <;> cases a <;> exact ⟨rfl, rfl, rfl, rfl, rfl⟩

/-- C10: on a fully populated Item (all five fields non-null), rebuilding an
Item from its `exclude_none` dict yields the original item — record-to-entity
conversion is a left inverse of entity-to-record serialization there. -/
theorem parse_dict_roundtrip (d : Item) (_h1 : d.id.isSome) (_h2 : d.description.isSome)
    (_h3 : d.tax.isSome) :
    parseItem (JValue.obj (itemDict d)) = some d :=
  parseItem_itemDict d

/-- C10 witness at a concrete fully populated item. -/
theorem parse_dict_roundtrip_witness :
    parseItem (JValue.obj (itemDict ⟨some 1, "Foo", some "bar", 3, some 2⟩)) =
      some ⟨some 1, "Foo", some "bar", 3, some 2⟩ :=
  parse_dict_roundtrip ⟨some 1, "Foo", some "bar", 3, some 2⟩ rfl rfl rfl

end App
